import Mathlib

/-!
# Verification of the cohere-api content-acquisition and extraction pipeline

Shallow embedding of the core of `Woven-Web/cohere-api`:

* `src/app/core/fetchers.py` — the simple-mode HTTP fetcher's retry /
  classification loop (`fetch_http_content`) and the `FetchError` type,
  plus the rendered-mode blocked-content branch of
  `fetch_playwright_content`;
* `src/app/core/llm.py` — the response-repair and field-normalization
  part of `extract_event_info` (the Gemini network call itself is
  external I/O; everything from the raw response text onwards is pure
  and embedded here), including a model of Python's `json.loads` and of
  the concrete regular expressions the source uses;
* `src/app/core/preprocessor.py` — the element-removal stages and the
  truncation policy of `preprocess_html`.

Strings are modelled as `List Char` (Python `str` values in the relevant
code paths are sequences of characters).  Regular-expression behaviour
is embedded concretely for the fixed patterns appearing in the source,
with Python's greedy/backtracking semantics spelled out.  Character
classes (`\w`, `\s`, `str.strip`, `str.lower`) are modelled on their
ASCII behaviour; the Unicode extensions of those classes are not needed
by any statement below.
-/

namespace CohereApi

/-! ## Character classes and basic string operations -/

/-- Whitespace stripped by Python `str.strip()` (ASCII part of the
Unicode White_Space class, which is all the source's code paths rely
on). -/
def isPyWs (c : Char) : Bool :=
  c == ' ' || c == '\t' || c == '\n' || c == '\r' || c == '\x0b' || c == '\x0c' ||
  c == '\x1c' || c == '\x1d' || c == '\x1e' || c == '\x1f' || c == '\x85' || c == '\xa0'

/-- Python `str.strip()`:  drop leading and trailing whitespace. -/
def stripPy (l : List Char) : List Char :=
  ((l.dropWhile isPyWs).reverse.dropWhile isPyWs).reverse

/-- The `\s` character class of Python's `re` module (ASCII part). -/
def isReSpace (c : Char) : Bool :=
  c == ' ' || c == '\t' || c == '\n' || c == '\r' || c == '\x0b' || c == '\x0c'

/-- The `\w` character class of Python's `re` module (ASCII part). -/
def isReWord (c : Char) : Bool :=
  ('a' ≤ c && c ≤ 'z') || ('A' ≤ c && c ≤ 'Z') || ('0' ≤ c && c ≤ '9') || c == '_'

/-- ASCII lower-casing, the fragment of Python `str.lower()` relevant to
comparing against the all-ASCII no-value tokens. -/
def lowerPy (l : List Char) : List Char :=
  l.map fun c => if 'A' ≤ c && c ≤ 'Z' then Char.ofNat (c.toNat + 32) else c

/-- `startsWithList pre l` : `pre` is a prefix of `l`. -/
def startsWithList : List Char → List Char → Bool
  | [], _ => true
  | _ :: _, [] => false
  | a :: as, b :: bs => a == b && startsWithList as bs

/-- `containsSub needle hay` : `needle` occurs as a contiguous substring
of `hay` (Python `in` on strings / `re` literal search). -/
def containsSub (needle : List Char) : List Char → Bool
  | [] => startsWithList needle []
  | c :: rest => startsWithList needle (c :: rest) || containsSub needle rest

/-- `endsWithList suf l` : `suf` is a suffix of `l`. -/
def endsWithList (suf l : List Char) : Bool :=
  startsWithList suf.reverse l.reverse

/-! ## Markdown code-fence stripping (`llm.py` lines 249-252)

`text = re.sub(r'^```\w*\n?', '', text)` removes, at the start of the
string only, three backticks, a greedy run of word characters (the
language hint) and at most one newline.
`text = re.sub(r'\n?```$', '', text)` removes, at the end of the
(already stripped, hence newline-free-at-end) string, three backticks
preceded by at most one newline. -/

def backtick3 : List Char := ['`', '`', '`']

/-- The `\n?` part of the fence patterns: drop one optional leading
newline. -/
def dropOptNewline : List Char → List Char
  | [] => []
  | c :: rest => if c == '\n' then rest else c :: rest

/-- `re.sub(r'^```\w*\n?', '', text)` on a string with no leading
whitespace. -/
def stripOpeningFence (l : List Char) : List Char :=
  if startsWithList backtick3 l then
    dropOptNewline ((l.drop 3).dropWhile isReWord)
  else l

/-- `re.sub(r'\n?```$', '', text)` on a string with no trailing
whitespace. -/
def stripClosingFence (l : List Char) : List Char :=
  if startsWithList backtick3 l.reverse then
    (dropOptNewline (l.reverse.drop 3)).reverse
  else l

/-! ## The title-anchored JSON-substring search (`llm.py` line 257)

`re.search(r'\{[^}]*"title"[^}]*\}', text, re.DOTALL)`.  Since `[^}]`
cannot cross a closing brace, a match starting at an opening brace at
position `i` extends exactly to the first `'}'` after `i`, and exists
iff the literal `"title"` (with its quotes) occurs strictly between the
two; `re.search` returns the match at the leftmost such `i`. -/

/-- The characters of `rest` strictly before its first `'}'`, or `none`
if `rest` has no `'}'`. -/
def takeUntilCloseBrace : List Char → Option (List Char)
  | [] => none
  | c :: rest =>
    if c == '\x7d' then some []
    else (takeUntilCloseBrace rest).map (c :: ·)

/-- The quoted key `"title"` as it appears in the pattern. -/
def quotedTitle : List Char := '"' :: ('t' :: 'i' :: 't' :: 'l' :: 'e' :: ['"'])

/-- Attempt of the pattern `\{[^}]*"title"[^}]*\}` anchored at the head
of `l`, returning the matched text. -/
def jsonMatchAt (l : List Char) : Option (List Char) :=
  match l with
  | [] => none
  | c :: rest =>
    if c == '\x7b' then
      match takeUntilCloseBrace rest with
      | some mid =>
        if containsSub quotedTitle mid then some ('\x7b' :: (mid ++ ['\x7d'])) else none
      | none => none
    else none

/-- `re.search(r'\{[^}]*"title"[^}]*\}', text, re.DOTALL)`: leftmost
match. -/
def findJsonMatch : List Char → Option (List Char)
  | [] => none
  | c :: rest =>
    match jsonMatchAt (c :: rest) with
    | some m => some m
    | none => findJsonMatch rest

/-! ## Field-by-field regex salvage (`llm.py` lines 265-285)

Each of the five patterns is `"<field>"["\s:]+([^"\n,}]+)`.  Greedy
matching with backtracking: after the literal `"<field>"`, the engine
consumes the maximal run of `["\s:]` characters, then needs a non-empty
capture of `[^"\n,}]` characters; on failure it gives characters back
one at a time (down to a run of length one). -/

/-- The class `["\s:]`. -/
def isSepClass (c : Char) : Bool :=
  c == '"' || isReSpace c || c == ':'

/-- The class `[^"\n,}]`. -/
def isCaptureClass (c : Char) : Bool :=
  !(c == '"' || c == '\n' || c == ',' || c == '\x7d')

/-- Backtracking over the separator-run length: try `a` consumed
separator characters, then `a-1`, down to `1`; the capture is the
maximal `[^"\n,}]` run after the consumed separators and must be
non-empty. -/
def tryCaptureFrom (rest : List Char) : Nat → Option (List Char)
  | 0 => none
  | a + 1 =>
    let cap := (rest.drop (a + 1)).takeWhile isCaptureClass
    if cap.isEmpty then tryCaptureFrom rest a else some cap

/-- Match of `"<field>"["\s:]+([^"\n,}]+)` anchored at the head of `l`;
returns the capture group. -/
def fieldMatchAt (field : List Char) (l : List Char) : Option (List Char) :=
  let lit := '"' :: (field ++ ['"'])
  if startsWithList lit l then
    let rest := l.drop lit.length
    tryCaptureFrom rest (rest.takeWhile isSepClass).length
  else none

/-- `re.search` for the field pattern: leftmost position at which the
whole pattern matches; returns the capture group. -/
def searchField (field : List Char) : List Char → Option (List Char)
  | [] => none
  | c :: rest =>
    match fieldMatchAt field (c :: rest) with
    | some cap => some cap
    | none => searchField field rest

/-! ## Python `json.loads`

`extract_event_info` parses the repaired text with `json.loads`
(strict mode, default flags).  The parser below follows the `json`
module's grammar: JSON whitespace is ` \t\n\r`; strings accept the
eight standard escapes and `\uXXXX` (surrogate pairs combined); raw
control characters below `0x20` are rejected; numbers keep their
lexeme; the extra constants `NaN`, `Infinity` and `-Infinity` that
Python accepts are kept as numeric lexemes; the whole input must be
consumed up to trailing whitespace.  Python `dict`s built from JSON
objects are modelled as association lists in which a repeated key's
last binding wins (`dictGet`). -/

inductive Json where
  | null : Json
  | bool : Bool → Json
  | num : List Char → Json
  | str : List Char → Json
  | arr : List Json → Json
  | obj : List (List Char × Json) → Json
deriving Repr

/-- `dict.get(key)`: the last binding of `key` (later duplicate keys
overwrite earlier ones when Python builds the dict), or `none`. -/
def dictGet (k : List Char) : List (List Char × Json) → Option Json
  | [] => none
  | (k', v) :: rest =>
    match dictGet k rest with
    | some r => some r
    | none => if k' == k then some v else none

/-- JSON whitespace (`json.decoder`: space, tab, newline, carriage
return). -/
def isJsonWs (c : Char) : Bool :=
  c == ' ' || c == '\t' || c == '\n' || c == '\r'

def skipJsonWs (l : List Char) : List Char := l.dropWhile isJsonWs

def hexVal (c : Char) : Option Nat :=
  let n := c.toNat
  if 48 ≤ n && n ≤ 57 then some (n - 48)
  else if 97 ≤ n && n ≤ 102 then some (n - 87)
  else if 65 ≤ n && n ≤ 70 then some (n - 55)
  else none

def hex4 (a b c d : Char) : Option Nat :=
  match hexVal a, hexVal b, hexVal c, hexVal d with
  | some va, some vb, some vc, some vd => some (va * 4096 + vb * 256 + vc * 16 + vd)
  | _, _, _, _ => none

/-- Body of a JSON string after its opening quote: returns the decoded
characters and the input after the closing quote. -/
def parseStringBody : Nat → List Char → Option (List Char × List Char)
  | 0, _ => none
  | _ + 1, [] => none
  | _ + 1, '"' :: rest => some ([], rest)
  | fuel + 1, '\\' :: esc =>
    match esc with
    | '"' :: rest => (parseStringBody fuel rest).map fun (s, r) => ('"' :: s, r)
    | '\\' :: rest => (parseStringBody fuel rest).map fun (s, r) => ('\\' :: s, r)
    | '/' :: rest => (parseStringBody fuel rest).map fun (s, r) => ('/' :: s, r)
    | 'b' :: rest => (parseStringBody fuel rest).map fun (s, r) => ('\x08' :: s, r)
    | 'f' :: rest => (parseStringBody fuel rest).map fun (s, r) => ('\x0c' :: s, r)
    | 'n' :: rest => (parseStringBody fuel rest).map fun (s, r) => ('\n' :: s, r)
    | 'r' :: rest => (parseStringBody fuel rest).map fun (s, r) => ('\r' :: s, r)
    | 't' :: rest => (parseStringBody fuel rest).map fun (s, r) => ('\t' :: s, r)
    | 'u' :: a :: b :: c :: d :: rest =>
      match hex4 a b c d with
      | none => none
      | some n =>
        if 0xd800 ≤ n && n < 0xdc00 then
          match rest with
          | '\\' :: 'u' :: a2 :: b2 :: c2 :: d2 :: rest2 =>
            match hex4 a2 b2 c2 d2 with
            | some m =>
              if 0xdc00 ≤ m && m < 0xe000 then
                (parseStringBody fuel rest2).map fun (s, r) =>
                  (Char.ofNat (0x10000 + (n - 0xd800) * 0x400 + (m - 0xdc00)) :: s, r)
              else (parseStringBody fuel rest).map fun (s, r) => (Char.ofNat n :: s, r)
            | none => (parseStringBody fuel rest).map fun (s, r) => (Char.ofNat n :: s, r)
          | _ => (parseStringBody fuel rest).map fun (s, r) => (Char.ofNat n :: s, r)
        else (parseStringBody fuel rest).map fun (s, r) => (Char.ofNat n :: s, r)
    | _ => none
  | fuel + 1, c :: rest =>
    if c.toNat < 0x20 then none
    else (parseStringBody fuel rest).map fun (s, r) => (c :: s, r)

def isDigit (c : Char) : Bool := 48 ≤ c.toNat && c.toNat ≤ 57

/-- Optional fraction part `(\.\d+)?`: returns the consumed lexeme
characters and the rest. -/
def parseFrac (r : List Char) : List Char × List Char :=
  match r with
  | '.' :: d :: rest =>
    if isDigit d then
      let ds := rest.takeWhile isDigit
      ('.' :: d :: ds, rest.drop ds.length)
    else ([], r)
  | _ => ([], r)

/-- Optional exponent part `([eE][-+]?\d+)?`: returns the consumed
lexeme characters and the rest. -/
def parseExp (r : List Char) : List Char × List Char :=
  match r with
  | e :: rest =>
    if e == 'e' || e == 'E' then
      let (sign, rest2) :=
        match rest with
        | '+' :: r2 => ((['+'] : List Char), r2)
        | '-' :: r2 => ((['-'] : List Char), r2)
        | _ => (([] : List Char), rest)
      match rest2 with
      | d :: r3 =>
        if isDigit d then
          let ds := r3.takeWhile isDigit
          (e :: (sign ++ d :: ds), r3.drop ds.length)
        else ([], e :: rest)
      | [] => ([], e :: rest)
    else ([], e :: rest)
  | [] => ([], [])

/-- Unsigned number `(0|[1-9]\d*)(\.\d+)?([eE][-+]?\d+)?`. -/
def parseUnsignedNumber (l : List Char) : Option (List Char × List Char) :=
  match l with
  | c :: rest =>
    if c == '0' then
      let (f, r1) := parseFrac rest
      let (x, r2) := parseExp r1
      some ('0' :: (f ++ x), r2)
    else if isDigit c then
      let ds := rest.takeWhile isDigit
      let (f, r1) := parseFrac (rest.drop ds.length)
      let (x, r2) := parseExp r1
      some ((c :: ds) ++ f ++ x, r2)
    else none
  | [] => none

/-- Lexeme of a JSON number (the `json` module's `NUMBER_RE`):
`-?(0|[1-9]\d*)(\.\d+)?([eE][-+]?\d+)?`. -/
def parseNumberLexeme (l : List Char) : Option (List Char × List Char) :=
  match l with
  | '-' :: rest => (parseUnsignedNumber rest).map fun (lex, r) => ('-' :: lex, r)
  | _ => parseUnsignedNumber l

mutual

/-- A JSON value at the head of `l` (leading whitespace already
skipped); returns the value and the unconsumed rest. -/
def parseValue : Nat → List Char → Option (Json × List Char)
  | 0, _ => none
  | fuel + 1, l =>
    match l with
    | '\x7b' :: rest => parseMembers fuel (skipJsonWs rest) true
    | '[' :: rest => parseElements fuel (skipJsonWs rest) true
    | '"' :: rest => (parseStringBody (rest.length + 1) rest).map fun (s, r) => (Json.str s, r)
    | 't' :: 'r' :: 'u' :: 'e' :: rest => some (Json.bool true, rest)
    | 'f' :: 'a' :: 'l' :: 's' :: 'e' :: rest => some (Json.bool false, rest)
    | 'n' :: 'u' :: 'l' :: 'l' :: rest => some (Json.null, rest)
    | 'N' :: 'a' :: 'N' :: rest => some (Json.num ['N', 'a', 'N'], rest)
    | 'I' :: 'n' :: 'f' :: 'i' :: 'n' :: 'i' :: 't' :: 'y' :: rest =>
      some (Json.num ['I', 'n', 'f', 'i', 'n', 'i', 't', 'y'], rest)
    | '-' :: 'I' :: 'n' :: 'f' :: 'i' :: 'n' :: 'i' :: 't' :: 'y' :: rest =>
      some (Json.num ['-', 'I', 'n', 'f', 'i', 'n', 'i', 't', 'y'], rest)
    | _ => (parseNumberLexeme l).map fun (lex, r) => (Json.num lex, r)

/-- Members of an object after `{` (whitespace skipped); `first` is
true before the first member. -/
def parseMembers : Nat → List Char → Bool → Option (Json × List Char)
  | 0, _, _ => none
  | _ + 1, '\x7d' :: rest, true => some (Json.obj [], rest)
  | fuel + 1, l, _ =>
    match l with
    | '"' :: rest =>
      match parseStringBody (rest.length + 1) rest with
      | none => none
      | some (key, r1) =>
        match skipJsonWs r1 with
        | ':' :: r2 =>
          match parseValue fuel (skipJsonWs r2) with
          | none => none
          | some (v, r3) =>
            match skipJsonWs r3 with
            | ',' :: r4 =>
              match parseMembers fuel (skipJsonWs r4) false with
              | some (Json.obj ms, r5) => some (Json.obj ((key, v) :: ms), r5)
              | _ => none
            | '\x7d' :: r4 => some (Json.obj [(key, v)], r4)
            | _ => none
        | _ => none
    | _ => none

/-- Elements of an array after `[` (whitespace skipped). -/
def parseElements : Nat → List Char → Bool → Option (Json × List Char)
  | 0, _, _ => none
  | _ + 1, ']' :: rest, true => some (Json.arr [], rest)
  | fuel + 1, l, _ =>
    match parseValue fuel l with
    | none => none
    | some (v, r1) =>
      match skipJsonWs r1 with
      | ',' :: r2 =>
        match parseElements fuel (skipJsonWs r2) false with
        | some (Json.arr vs, r3) => some (Json.arr (v :: vs), r3)
        | _ => none
      | ']' :: r2 => some (Json.arr [v], r2)
      | _ => none

end

/-- Python `json.loads`: parse one JSON value, allowing surrounding
whitespace, rejecting any trailing data. -/
def json_loads (l : List Char) : Option Json :=
  match parseValue (2 * l.length + 2) (skipJsonWs l) with
  | some (v, rest) => if (skipJsonWs rest).isEmpty then some v else none
  | none => none

/-! ## JSON cleanup and salvage construction (`llm.py` lines 274-292) -/

/-- `text.replace('\n', '')` (line 290). -/
def removeNewlines (l : List Char) : List Char :=
  l.filter fun c => !(c == '\n')

/-- `re.sub(r',\s*}', '}', text)` (line 291): scanning left to right, a
comma followed by optional whitespace and a closing brace is replaced by
the closing brace; scanning resumes after the replaced region. -/
def subCommaBraceGo : Nat → List Char → List Char
  | 0, l => l
  | _ + 1, [] => []
  | fuel + 1, c :: rest =>
    if c == ',' then
      match rest.dropWhile isReSpace with
      | '\x7d' :: rest2 => '\x7d' :: subCommaBraceGo fuel rest2
      | _ => ',' :: subCommaBraceGo fuel rest
    else c :: subCommaBraceGo fuel rest

/-- `subCommaBraceGo` entered with fuel equal to the input length;
every recursive call shortens the list by at least one character, so
the fuel never runs out. -/
def subCommaBrace (l : List Char) : List Char := subCommaBraceGo l.length l

/-- `re.sub(r',\s*]', ']', text)` (line 292). -/
def subCommaBracketGo : Nat → List Char → List Char
  | 0, l => l
  | _ + 1, [] => []
  | fuel + 1, c :: rest =>
    if c == ',' then
      match rest.dropWhile isReSpace with
      | ']' :: rest2 => ']' :: subCommaBracketGo fuel rest2
      | _ => ',' :: subCommaBracketGo fuel rest
    else c :: subCommaBracketGo fuel rest

def subCommaBracket (l : List Char) : List Char := subCommaBracketGo l.length l

/-- The five required field names (`llm.py` line 336). -/
def requiredFields : List (List Char) :=
  ["title".data, "description".data, "start_datetime".data,
   "end_datetime".data, "location".data]

/-- The JSON text the salvage branch builds by string concatenation
(lines 274-280): each capture — or the literal characters `null` when
the field's pattern did not match — is spliced between double quotes. -/
def constructFromSalvage (t : List Char) : List Char :=
  let val := fun (field : List Char) =>
    match searchField field t with
    | some cap => cap
    | none => "null".data
  '\x7b' ::
    ("\"title\": \"".data ++ val "title".data ++ "\",".data ++
     "\"description\": \"".data ++ val "description".data ++ "\",".data ++
     "\"start_datetime\": \"".data ++ val "start_datetime".data ++ "\",".data ++
     "\"end_datetime\": \"".data ++ val "end_datetime".data ++ "\",".data ++
     "\"location\": \"".data ++ val "location".data ++ "\"".data ++
     ['\x7d'])

/-! ## Result-shape check and field normalization (`llm.py` lines 300-354) -/

/-- Lines 301-316: a parsed value must be a dict, except that a
one-element list holding a dict is unwrapped; anything else is a
`ResponseParsingError`. -/
def asDict : Json → Option (List (List Char × Json))
  | Json.obj d => some d
  | Json.arr [Json.obj d] => some d
  | _ => none

/-- The no-value tokens of line 346 (compared against the lowercased,
stripped value). -/
def noValueTokens : List (List Char) :=
  ["none".data, "null".data, "not found".data, [] ]

/-- Lines 340-351: normalization of one field value.  `none` models a
key that is absent from the dict or mapped to JSON `null` (both are
Python `None`); strings equal to `"null"` or `""` become null, other
strings are stripped and, when their lowercase form is a no-value
token, become null, otherwise kept stripped; non-string values are kept
as-is. -/
def cleanField : Option Json → Json
  | none => Json.null
  | some Json.null => Json.null
  | some (Json.str s) =>
    if s == "null".data || s == [] then Json.null
    else
      let cleaned := stripPy s
      if noValueTokens.contains (lowerPy cleaned) then Json.null
      else Json.str cleaned
  | some v => v

/-- Lines 336-354: the cleaned result holds exactly the five required
fields, in order, each normalized by `cleanField`. -/
def normalizeResult (d : List (List Char × Json)) : List (List Char × Json) :=
  requiredFields.map fun f => (f, cleanField (dictGet f d))

/-! ## The response-repair pipeline of `extract_event_info`
(`llm.py` lines 234-354) -/

/-- Failure modes of the pipeline; all three are raised as
`ResponseParsingError` in the source. -/
inductive ExtractErr where
  | emptyResponse : ExtractErr
  | jsonDecode : ExtractErr
  | notAnObject : ExtractErr
deriving DecidableEq, Repr

/-- Lines 255-333 applied to the stripped, fence-stripped text `t2`:
substring extraction (or salvage construction), newline removal,
trailing-comma repair, `json.loads`, and the dict-shape check. -/
def repairAndParse (t2 : List Char) : Except ExtractErr (List (List Char × Json)) :=
  let t3 :=
    match findJsonMatch t2 with
    | some m => m
    | none => constructFromSalvage t2
  let t4 := subCommaBracket (subCommaBrace (removeNewlines t3))
  match json_loads t4 with
  | none => Except.error ExtractErr.jsonDecode
  | some v =>
    match asDict v with
    | some d => Except.ok d
    | none => Except.error ExtractErr.notAnObject

/-- Lines 234-333: the whole parse stage of `extract_event_info`, from
the raw model-response text to the parsed dict (before field
normalization).  An empty or whitespace-only response is rejected at
line 234; then the text is stripped, the markdown fence markers are
removed and the text stripped again (lines 246-252). -/
def extract_parse (raw : List Char) : Except ExtractErr (List (List Char × Json)) :=
  if (stripPy raw).isEmpty then Except.error ExtractErr.emptyResponse
  else
    repairAndParse (stripPy (stripClosingFence (stripOpeningFence (stripPy raw))))

/-- The pure part of `extract_event_info`: parse stage followed by
field normalization (lines 336-354).  A successful extraction returns
the cleaned five-field record. -/
def extract_event_info (raw : List Char) : Except ExtractErr (List (List Char × Json)) :=
  (extract_parse raw).map normalizeResult

/-! ## The simple-mode fetcher (`fetchers.py` lines 59-202)

`fetch_http_content`'s URL validation (lines 107-114) precedes the
retry loop and is not involved in any claim below; the loop is entered
with a valid URL.  One call to `requests.get` per loop iteration is
modelled by indexing an abstract server behaviour with the attempt
number; the advisory content-type / encoding / body-length checks
(lines 131-134, 157-166) only log and never change the result. -/

/-- `get_error_message` (lines 59-72). -/
def get_error_message (status : Nat) : List Char :=
  if status == 400 then "Bad request - check URL format and parameters".data
  else if status == 401 then "Authentication required".data
  else if status == 403 then "Access forbidden - site may be blocking access".data
  else if status == 404 then "Page not found".data
  else if status == 429 then "Too many requests - rate limited".data
  else if status == 500 then "Server error".data
  else if status == 502 then "Bad gateway - server error".data
  else if status == 503 then "Service unavailable".data
  else if status == 504 then "Gateway timeout".data
  else "HTTP ".data ++ (toString status).data

/-- What one `requests.get` call does: an HTTP response with a status
and a body, or one of the transport-level exceptions the source
handles. -/
inductive HttpAttempt where
  | resp : Nat → List Char → HttpAttempt
  | timeout : HttpAttempt
  | connError : List Char → HttpAttempt
  | reqError : List Char → HttpAttempt
deriving DecidableEq, Repr

/-- The data a raised `FetchError` carries (lines 22-35; the `url` and
`details` arguments are constant over one call and omitted). -/
structure FetchErrorData where
  message : List Char
  status_code : Option Nat
deriving DecidableEq, Repr

/-- Observable events of one `fetch_http_content` call: the successive
`requests.get` attempts (numbered from 0) and the `time.sleep` backoff
delays between them. -/
inductive FetchEvent where
  | attempt : Nat → FetchEvent
  | sleep : Nat → FetchEvent
deriving DecidableEq, Repr

/-- Result and event trace of one `fetch_http_content` call. -/
structure FetchRun where
  result : Except FetchErrorData (List Char)
  trace : List FetchEvent
deriving Repr

/-- The `while retries <= max_retries` loop (lines 117-202).  `fuel` is
`max_retries + 1 - retries`, the number of loop iterations still
allowed; when it reaches zero the loop has exited and the last stored
error is raised (lines 196-202). -/
def fetch_http_loop (server : Nat → HttpAttempt) (max_retries retry_delay timeout : Nat) :
    Nat → Nat → Option FetchErrorData → List FetchEvent → FetchRun
  | 0, _, lastError, tr =>
    { result := Except.error (lastError.getD
        { message := "Failed to fetch after retries".data, status_code := none }),
      trace := tr }
  | fuel + 1, retries, lastError, tr =>
    let tr := tr ++ [FetchEvent.attempt retries]
    match server retries with
    | HttpAttempt.resp status _body =>
      if 400 ≤ status then
        -- lines 137-155
        if 500 ≤ status ∧ status < 600 ∧ retries < max_retries then
          fetch_http_loop server max_retries retry_delay timeout fuel (retries + 1)
            (some { message := "Server error: ".data ++ get_error_message status,
                    status_code := some status })
            (tr ++ [FetchEvent.sleep retry_delay])
        else
          { result := Except.error
              { message := "HTTP error: ".data ++ get_error_message status,
                status_code := some status },
            trace := tr }
      else
        { result := Except.ok _body, trace := tr }
    | HttpAttempt.timeout =>
      -- lines 169-171 then 189-194
      let e : FetchErrorData :=
        { message := ("Request timed out after ".data ++ (toString timeout).data ++
            " seconds".data), status_code := none }
      if retries < max_retries then
        fetch_http_loop server max_retries retry_delay timeout fuel (retries + 1) (some e)
          (tr ++ [FetchEvent.sleep retry_delay])
      else { result := Except.error e, trace := tr }
    | HttpAttempt.connError msg =>
      let e : FetchErrorData :=
        { message := "Connection error: ".data ++ msg, status_code := none }
      if retries < max_retries then
        fetch_http_loop server max_retries retry_delay timeout fuel (retries + 1) (some e)
          (tr ++ [FetchEvent.sleep retry_delay])
      else { result := Except.error e, trace := tr }
    | HttpAttempt.reqError msg =>
      let e : FetchErrorData :=
        { message := "Request error: ".data ++ msg, status_code := none }
      if retries < max_retries then
        fetch_http_loop server max_retries retry_delay timeout fuel (retries + 1) (some e)
          (tr ++ [FetchEvent.sleep retry_delay])
      else { result := Except.error e, trace := tr }

/-- `fetch_http_content` after URL validation: run the retry loop with
`retries = 0` (line 117). -/
def fetch_http_content (server : Nat → HttpAttempt) (max_retries retry_delay timeout : Nat) :
    FetchRun :=
  fetch_http_loop server max_retries retry_delay timeout (max_retries + 1) 0 none []

/-! ## The rendered-mode blocked-content branch (`fetchers.py`
lines 22-35 and 303-313, 399-412)

`FetchError.__init__` (line 25) accepts exactly the keyword parameters
`url`, `status_code` and `details` (besides the positional `message`).
Python raises `TypeError` when a call passes a keyword argument the
signature does not accept.  The blocked-selector branch (line 308) and
the generic `except Exception` wrapper (line 407) both pass
`error_type=...`. -/

/-- The keyword parameters accepted by `FetchError.__init__`
(line 25-29). -/
def fetchErrorInitKeywords : List (List Char) :=
  ["url".data, "status_code".data, "details".data]

/-- Outcome of evaluating a `raise FetchError(...)` statement: either
the intended `FetchError` is raised, or constructing it raises
`TypeError: unexpected keyword argument`. -/
inductive RaiseOutcome where
  | fetchError : List Char → RaiseOutcome
  | typeError : List Char → RaiseOutcome
deriving DecidableEq, Repr

/-- Python call semantics for `FetchError(message, **kwargs)`:
every keyword argument must be an accepted parameter name. -/
def raiseFetchError (message : List Char) (kwargs : List (List Char)) : RaiseOutcome :=
  match kwargs.find? (fun k => !(fetchErrorInitKeywords.contains k)) with
  | some bad => RaiseOutcome.typeError bad
  | none => RaiseOutcome.fetchError message

/-- Line 308-313: the statement executed when a blocked selector is
found on the page. -/
def blockedSelectorRaise : RaiseOutcome :=
  raiseFetchError "Content access blocked".data
    ["error_type".data, "url".data, "details".data]

/-- Lines 406-412: the `except Exception` handler that any non-`FetchError`
exception (in particular the `TypeError` above) reaches; it, too,
passes `error_type=...` to `FetchError`. -/
def unexpectedErrorRaise : RaiseOutcome :=
  raiseFetchError "Unexpected error".data
    ["error_type".data, "url".data, "details".data]

/-- What escapes a `fetch_playwright_content` attempt that detects a
blocked selector: the blocked-branch raise, routed through the
exception handlers of lines 399-412.  A `FetchError` would be
re-raised as such (line 404 on the last attempt); any other exception
goes to the generic wrapper (line 406), whose own `FetchError(...)`
construction is evaluated. -/
def fetch_playwright_blocked_outcome : RaiseOutcome :=
  match blockedSelectorRaise with
  | RaiseOutcome.fetchError m => RaiseOutcome.fetchError m
  | RaiseOutcome.typeError _ => unexpectedErrorRaise

/-! ## The preprocessor (`preprocessor.py` lines 12-97)

HTML documents are modelled as forests of element / text / comment
nodes (`BeautifulSoup`'s parse tree).  The element-removal stages
(lines 35-62) are embedded directly; the conversion of the remaining
tree to Markdown by the external `markdownify` library (line 74) is
modelled as plain text extraction, which preserves exactly the text
content the claims are about. -/

mutual

inductive HtmlNode where
  | elem : List Char → List (List Char × List Char) → HtmlForest → HtmlNode
  | text : List Char → HtmlNode
  | comment : List Char → HtmlNode

inductive HtmlForest where
  | nil : HtmlForest
  | cons : HtmlNode → HtmlForest → HtmlForest

end

/-- The default `remove_elements` list (line 36). -/
def defaultRemoveElements : List (List Char) :=
  ["script".data, "style".data, "nav".data, "footer".data, "aside".data,
   "form".data, "iframe".data, "noscript".data]

/-- Lines 46-48: `tag.decompose()` for every element whose tag name is
in the removal list (removing an element removes its whole subtree). -/
def removeTags (tags : List (List Char)) : HtmlForest → HtmlForest
  | HtmlForest.nil => HtmlForest.nil
  | HtmlForest.cons (HtmlNode.elem t a c) rest =>
    if tags.contains t then removeTags tags rest
    else HtmlForest.cons (HtmlNode.elem t a (removeTags tags c)) (removeTags tags rest)
  | HtmlForest.cons n rest => HtmlForest.cons n (removeTags tags rest)
termination_by structural l => l

/-- Lines 51-52: remove all comment nodes. -/
def removeComments : HtmlForest → HtmlForest
  | HtmlForest.nil => HtmlForest.nil
  | HtmlForest.cons (HtmlNode.comment _) rest => removeComments rest
  | HtmlForest.cons (HtmlNode.elem t a c) rest =>
    HtmlForest.cons (HtmlNode.elem t a (removeComments c)) (removeComments rest)
  | HtmlForest.cons n rest => HtmlForest.cons n (removeComments rest)
termination_by structural l => l

/-- A CSS selector of the attribute-equality form `[attr="value"]`
(the form role-based removal would use). -/
structure AttrSelector where
  attr : List Char
  value : List Char

def matchesSelector (s : AttrSelector) : HtmlNode → Bool
  | HtmlNode.elem _ attrs _ => attrs.contains (s.attr, s.value)
  | _ => false

/-- Lines 55-57: `element.decompose()` for every element matching one
selector. -/
def removeBySelector (s : AttrSelector) : HtmlForest → HtmlForest
  | HtmlForest.nil => HtmlForest.nil
  | HtmlForest.cons (HtmlNode.elem t a c) rest =>
    if matchesSelector s (HtmlNode.elem t a c) then removeBySelector s rest
    else HtmlForest.cons (HtmlNode.elem t a (removeBySelector s c)) (removeBySelector s rest)
  | HtmlForest.cons n rest => HtmlForest.cons n (removeBySelector s rest)
termination_by structural l => l

/-- Lines 54-57 over the whole selector list; `remove_by_selector`
defaults to the empty list (lines 38-39). -/
def removeBySelectors (sels : List AttrSelector) (doc : HtmlForest) : HtmlForest :=
  sels.foldl (fun acc s => removeBySelector s acc) doc

/-- The attribute allow-list of line 61. -/
def allowedAttrs : List (List Char) :=
  ["href".data, "src".data, "alt".data, "title".data]

/-- Lines 60-62: restrict every element's attributes to the
allow-list. -/
def stripAttrs : HtmlForest → HtmlForest
  | HtmlForest.nil => HtmlForest.nil
  | HtmlForest.cons (HtmlNode.elem t a c) rest =>
    HtmlForest.cons
      (HtmlNode.elem t (a.filter fun kv => allowedAttrs.contains kv.fst) (stripAttrs c))
      (stripAttrs rest)
  | HtmlForest.cons n rest => HtmlForest.cons n (stripAttrs rest)
termination_by structural l => l

/-- Text content of the remaining tree, in document order — the text
that the `markdownify` conversion of line 74 carries into the digest. -/
def textContent : HtmlForest → List Char
  | HtmlForest.nil => []
  | HtmlForest.cons (HtmlNode.elem _ _ c) rest => textContent c ++ textContent rest
  | HtmlForest.cons (HtmlNode.text s) rest => s ++ textContent rest
  | HtmlForest.cons (HtmlNode.comment _) rest => textContent rest
termination_by structural l => l

/-- Does any element with tag name `t` remain in the forest? -/
def hasTag (t : List Char) : HtmlForest → Bool
  | HtmlForest.nil => false
  | HtmlForest.cons (HtmlNode.elem t' _ c) rest =>
    t' == t || hasTag t c || hasTag t rest
  | HtmlForest.cons _ rest => hasTag t rest
termination_by structural l => l

/-- The element-removal stages of `preprocess_html` with the default
configuration (`remove_elements` and `remove_by_selector` left at
their defaults), followed by text extraction: the digest text. -/
def preprocess_digest (doc : HtmlForest) : List Char :=
  textContent (stripAttrs (removeBySelectors [] (removeComments (removeTags defaultRemoveElements doc))))

/-- The truncation marker of line 90. -/
def truncationMarker : List Char := "... [Content truncated]".data

/-- Lines 88-90: truncate the cleaned Markdown to `max_length`
characters, appending the marker when truncation occurs. -/
def truncate_markdown (markdown_content : List Char) (max_length : Nat) : List Char :=
  if max_length < markdown_content.length then
    markdown_content.take max_length ++ truncationMarker
  else markdown_content

/-- Discriminator: is a JSON value the null value? -/
def isNullJson : Json → Bool
  | Json.null => true
  | _ => false

/-- Discriminator: did an outcome raise a `FetchError` (as opposed to
some other exception)? -/
def isFetchErrorOutcome : RaiseOutcome → Bool
  | RaiseOutcome.fetchError _ => true
  | _ => false

/-! ## Helper lemmas -/

theorem startsWithList_append_self (p q : List Char) : startsWithList p (p ++ q) = true := by
  induction p with
  | nil => rfl
  | cons a t ih => simp [startsWithList, ih]

theorem dropWhile_self (p : Char → Bool) (l : List Char) :
    (l.dropWhile p).dropWhile p = l.dropWhile p := by
  induction l with
  | nil => rfl
  | cons a t ih =>
    by_cases h : p a
    · rw [List.dropWhile_cons_of_pos h, ih]
    · rw [List.dropWhile_cons_of_neg (by simpa using h),
        List.dropWhile_cons_of_neg (by simpa using h)]

/-- `stripPy` of a string whose first and last characters are not
whitespace is the string itself. -/
theorem stripPy_eq_self {l : List Char}
    (h1 : ∀ c, l.head? = some c → isPyWs c = false)
    (h2 : ∀ c, l.getLast? = some c → isPyWs c = false) : stripPy l = l := by
  unfold stripPy
  have hl : l.dropWhile isPyWs = l := by
    cases l with
    | nil => rfl
    | cons a t => exact List.dropWhile_cons_of_neg (by simp [h1 a rfl])
  rw [hl]
  have hr : l.reverse.dropWhile isPyWs = l.reverse := by
    cases hrev : l.reverse with
    | nil => rfl
    | cons a t =>
      have ha : l.getLast? = some a := by
        rw [← List.head?_reverse, hrev]; rfl
      exact List.dropWhile_cons_of_neg (by simp [h2 a ha])
  rw [hr, List.reverse_reverse]

/-- The right-strip `((l.reverse.dropWhile p).reverse)` is a prefix of
`l`. -/
theorem rstrip_pref (p : Char → Bool) (l : List Char) :
    (l.reverse.dropWhile p).reverse <+: l := by
  have h : l.reverse.dropWhile p <:+ l.reverse := List.dropWhile_suffix p
  have := h.reverse
  simpa using this

theorem stripPy_idem (l : List Char) : stripPy (stripPy l) = stripPy l := by
  have hyrev : (stripPy l).reverse = (l.dropWhile isPyWs).reverse.dropWhile isPyWs := by
    unfold stripPy; rw [List.reverse_reverse]
  have step2 : (stripPy l).reverse.dropWhile isPyWs = (stripPy l).reverse := by
    rw [hyrev, dropWhile_self]
  have step1 : (stripPy l).dropWhile isPyWs = stripPy l := by
    cases hy : stripPy l with
    | nil => rfl
    | cons a t =>
      have hpre : stripPy l <+: l.dropWhile isPyWs := rstrip_pref isPyWs (l.dropWhile isPyWs)
      rw [hy] at hpre
      obtain ⟨s, hs⟩ := hpre
      have hhead : (l.dropWhile isPyWs).head? = some a := by rw [← hs]; rfl
      have hne := List.head?_dropWhile_not isPyWs l
      rw [hhead] at hne
      exact List.dropWhile_cons_of_neg (by simp [hne])
  calc stripPy (stripPy l)
      = (((stripPy l).dropWhile isPyWs).reverse.dropWhile isPyWs).reverse := rfl
    _ = ((stripPy l).reverse.dropWhile isPyWs).reverse := by rw [step1]
    _ = (stripPy l).reverse.reverse := by rw [step2]
    _ = stripPy l := List.reverse_reverse _

/-! ## Claim C1 -/

/-- C1: a simple-mode fetch of a URL whose server returns HTTP 500 on
every attempt, with `max_retries = 2`, raises a `FetchError` carrying
status code 500 (classified by `get_error_message 500 = "Server error"`)
after exactly 3 request attempts (1 initial + 2 retries), with a
backoff delay of `retry_delay` between consecutive attempts. -/
theorem fetch_simple_500_three_attempts (body : Nat → List Char) (delay timeout : Nat) :
    fetch_http_content (fun k => HttpAttempt.resp 500 (body k)) 2 delay timeout =
      { result := Except.error
          { message := "HTTP error: Server error".data, status_code := some 500 },
        trace := [FetchEvent.attempt 0, FetchEvent.sleep delay, FetchEvent.attempt 1,
                  FetchEvent.sleep delay, FetchEvent.attempt 2] } := by
  rfl

/-! ## Claim C2 -/

/-- C2: a simple-mode fetch whose server responds with a status in
[400, 500) raises a `FetchError` carrying that status code and the
human-readable reason `get_error_message status` immediately: exactly
one request attempt, no sleep, regardless of `max_retries`. -/
theorem fetch_simple_4xx_immediate (server : Nat → HttpAttempt) (body : List Char)
    (status max_retries delay timeout : Nat)
    (h4 : 400 ≤ status) (h5 : status < 500)
    (hs : server 0 = HttpAttempt.resp status body) :
    fetch_http_content server max_retries delay timeout =
      { result := Except.error
          { message := "HTTP error: ".data ++ get_error_message status,
            status_code := some status },
        trace := [FetchEvent.attempt 0] } := by
  unfold fetch_http_content
  rw [show max_retries + 1 = Nat.succ max_retries from rfl]
  unfold fetch_http_loop
  rw [hs]
  simp only [List.nil_append]
  rw [if_pos h4, if_neg (by omega : ¬(500 ≤ status ∧ status < 600 ∧ 0 < max_retries))]

/-- Witness for C2 at `status = 404`. -/
theorem fetch_simple_4xx_immediate_witness :
    fetch_http_content (fun _ => HttpAttempt.resp 404 "irrelevant".data) 3 1 30 =
      { result := Except.error
          { message := "HTTP error: ".data ++ get_error_message 404,
            status_code := some 404 },
        trace := [FetchEvent.attempt 0] } :=
  fetch_simple_4xx_immediate (fun _ => HttpAttempt.resp 404 "irrelevant".data)
    "irrelevant".data 404 3 1 30 (by decide) (by decide) rfl

/-! ## Claim C7 -/

/-- C7: with `max_length = 50`, the truncation step of
`preprocess_html` leaves any digest of length ≤ 50 unchanged, and for
any digest longer than 50 characters returns output that ends with the
literal truncation marker and has total length ≤ 50 plus the marker's
length. -/
theorem preprocess_truncation_policy (digest : List Char) :
    (digest.length ≤ 50 → truncate_markdown digest 50 = digest) ∧
    (50 < digest.length →
      endsWithList truncationMarker (truncate_markdown digest 50) = true ∧
      (truncate_markdown digest 50).length ≤ 50 + truncationMarker.length) := by
  constructor
  · intro h
    unfold truncate_markdown
    rw [if_neg (by omega)]
  · intro h
    unfold truncate_markdown
    rw [if_pos (by omega)]
    constructor
    · unfold endsWithList
      rw [List.reverse_append]
      exact startsWithList_append_self _ _
    · simp [List.length_append, List.length_take]

/-- Witness for C7: a 10-character digest is left unchanged; a
60-character digest is truncated and marked. -/
theorem preprocess_truncation_policy_witness :
    truncate_markdown (List.replicate 10 'a') 50 = List.replicate 10 'a' ∧
    endsWithList truncationMarker (truncate_markdown (List.replicate 60 'a') 50) = true ∧
    (truncate_markdown (List.replicate 60 'a') 50).length ≤ 50 + truncationMarker.length :=
  ⟨(preprocess_truncation_policy (List.replicate 10 'a')).1 (by decide),
   (preprocess_truncation_policy (List.replicate 60 'a')).2 (by decide)⟩

/-! ## Claim C4 (code bug)

The spec and the claim say a found blocked selector surfaces a
`FetchError` classified as a blocked-access error.  The code's own call
sites assume `FetchError.__init__` takes an `error_type` keyword
parameter, but its signature (lines 25-29) has none, so the `raise`
at line 308 actually raises
`TypeError: __init__() got an unexpected keyword argument 'error_type'`,
and the generic `except Exception` wrapper (lines 406-412) repeats the
same mistake, so a `TypeError` — not a `FetchError` of any kind —
escapes `fetch_playwright_content`. -/

/-- C4: when a configured blocked selector is found, the raise at line
308 produces a `TypeError` on the keyword `error_type`, the outcome
that escapes the fetch is that `TypeError` (re-raised by the generic
handler, which fails the same way), and no `FetchError` is ever
constructed. -/
theorem blocked_selector_type_error :
    blockedSelectorRaise = RaiseOutcome.typeError "error_type".data ∧
    fetch_playwright_blocked_outcome = RaiseOutcome.typeError "error_type".data ∧
    isFetchErrorOutcome fetch_playwright_blocked_outcome = false ∧
    fetchErrorInitKeywords.contains "error_type".data = false :=
  ⟨rfl, rfl, rfl, rfl⟩

/-! ## Claim C5 -/

/-- C5: every successful extraction returns a record whose key
sequence is exactly `title, description, start_datetime, end_datetime,
location` — every key present (missing data is the value
`Json.null`, never an omitted key), and no extra keys. -/
theorem extract_record_keys_exact (raw : List Char) (r : List (List Char × Json))
    (h : extract_event_info raw = Except.ok r) :
    r.map Prod.fst = requiredFields := by
  unfold extract_event_info at h
  cases hp : extract_parse raw with
  | error e => rw [hp] at h; simp [Except.map] at h
  | ok d =>
    rw [hp] at h
    simp only [Except.map] at h
    cases h
    rfl

/-- A well-formed model response used to instantiate C5. -/
def sampleOkResponse : List Char :=
  "\x7b\"title\": \"T\", \"description\": null, \"start_datetime\": null, \"end_datetime\": null, \"location\": null\x7d".data

/-- The record `extract_event_info` produces on `sampleOkResponse`. -/
def sampleOkRecord : List (List Char × Json) :=
  [("title".data, Json.str ['T']), ("description".data, Json.null),
   ("start_datetime".data, Json.null), ("end_datetime".data, Json.null),
   ("location".data, Json.null)]

set_option maxRecDepth 8192 in
/-- Witness for C5 at a concrete successful extraction. -/
theorem extract_record_keys_exact_witness :
    sampleOkRecord.map Prod.fst = requiredFields :=
  extract_record_keys_exact sampleOkResponse sampleOkRecord rfl

/-! ## Claim C6 (corrected)

The claim describes the null-coercion set as: absent, null, the empty
string, or — after trimming, case-insensitively — one of `none`,
`null`, `not found`; any *other* string is trimmed and kept.  The code
(line 346) also includes the *empty string* in the post-trim token
list, so a whitespace-only string (trimmed to `""`, which is not one of
the three claimed tokens) is coerced to null by the code while the
claim as stated keeps it as the trimmed (empty) string. -/

/-- Modelled from the claim's words (C6): null iff the value is absent,
null, the empty string, or its trimmed lowercase form is one of the
three tokens `none`, `null`, `not found`; any other string is trimmed
and kept. -/
def cleanFieldSpecC6 : Option Json → Json
  | none => Json.null
  | some Json.null => Json.null
  | some (Json.str s) =>
    if s == [] ||
        ["none".data, "null".data, "not found".data].contains (lowerPy (stripPy s)) then
      Json.null
    else Json.str (stripPy s)
  | some v => v

/-- C6 counterexample: on the one-space string, the code yields null
while the claim's normalization yields the trimmed (empty) string —
the two disagree. -/
theorem clean_field_whitespace_only_diverges :
    cleanField (some (Json.str [' '])) = Json.null ∧
    cleanFieldSpecC6 (some (Json.str [' '])) = Json.str [] ∧
    isNullJson (cleanField (some (Json.str [' ']))) = true ∧
    isNullJson (cleanFieldSpecC6 (some (Json.str [' ']))) = false :=
  ⟨rfl, rfl, rfl, rfl⟩

/-- C6 amended: a field value is set to null iff it is absent, null,
or its trimmed lowercase form is empty or one of the tokens `none`,
`null`, `not found`; any other string value is trimmed of surrounding
whitespace and otherwise kept unchanged; non-string values are kept
as-is. -/
theorem clean_field_normalization (s : List Char) (b : Bool) :
    cleanField none = Json.null ∧
    cleanField (some Json.null) = Json.null ∧
    cleanField (some (Json.str s)) =
      (if noValueTokens.contains (lowerPy (stripPy s)) then Json.null
       else Json.str (stripPy s)) ∧
    cleanField (some (Json.bool b)) = Json.bool b := by
  refine ⟨rfl, rfl, ?_, rfl⟩
  by_cases h1 : s = "null".data
  · subst h1; rfl
  · by_cases h2 : s = []
    · subst h2; rfl
    · have hcond : (s == "null".data || s == []) = false := by
        simp [h1, h2]
      simp only [cleanField]
      rw [hcond]
      rfl

/-! ## Claim C9 (corrected)

The claim says the default configuration removes elements both by tag
name and by ARIA role markers.  The code's `remove_by_selector`
defaults to the empty list (lines 38-39), so by default nothing is
removed by role: text inside an element carrying `role="banner"` (or
any other role) stays in the digest.  Tag-name removal (including the
concrete `<script>` example) does hold. -/

/-- Convenience constructor for forests. -/
def forestOf : List HtmlNode → HtmlForest
  | [] => HtmlForest.nil
  | n :: rest => HtmlForest.cons n (forestOf rest)

/-- `<script>bad()</script><p>Event at noon</p>`. -/
def scriptExampleDoc : HtmlForest :=
  forestOf
    [HtmlNode.elem "script".data [] (forestOf [HtmlNode.text "bad()".data]),
     HtmlNode.elem "p".data [] (forestOf [HtmlNode.text "Event at noon".data])]

/-- `<div role="banner">SKIPME</div><p>Event at noon</p>`. -/
def roleBannerDoc : HtmlForest :=
  forestOf
    [HtmlNode.elem "div".data [("role".data, "banner".data)]
       (forestOf [HtmlNode.text "SKIPME".data]),
     HtmlNode.elem "p".data [] (forestOf [HtmlNode.text "Event at noon".data])]

/-- No element whose tag name is in the removal list survives
`removeTags`. -/
theorem removeTags_removes (tags : List (List Char)) (t : List Char)
    (ht : tags.contains t = true) (f : HtmlForest) :
    hasTag t (removeTags tags f) = false := by
  induction f using removeTags.induct tags with
  | case1 => rfl
  | case2 t' a c rest hcont ih =>
    simp only [removeTags]
    rw [if_pos hcont]
    exact ih
  | case3 t' a c rest hncont ihc ihrest =>
    have ht' : (t' == t) = false := by
      by_cases heq : t' = t
      · subst heq
        rw [ht] at hncont
        exact absurd rfl hncont
      · simpa using heq
    simp only [removeTags]
    rw [if_neg hncont]
    simp only [hasTag]
    rw [ht', ihc, ihrest]
    rfl
  | case4 n rest hne ih =>
    cases n with
    | elem t' a c => exact absurd rfl (hne t' a c)
    | text s => simpa [removeTags, hasTag] using ih
    | comment s => simpa [removeTags, hasTag] using ih

/-- C9 counterexample: with the default configuration, the text inside
an element carrying `role="banner"` *does* appear in the digest, and
the element is not removed — the claimed ARIA-role removal does not
happen. -/
theorem role_marked_text_survives :
    containsSub "SKIPME".data (preprocess_digest roleBannerDoc) = true ∧
    hasTag "div".data
      (removeBySelectors [] (removeComments (removeTags defaultRemoveElements roleBannerDoc))) = true :=
  ⟨rfl, rfl⟩

/-- C9 amended: with default configuration, `preprocess_html` removes
elements by tag name only (`script`, `style`, `nav`, `footer`,
`aside`, `form`, `iframe`, `noscript`) — no element with a listed tag
survives — while `remove_by_selector` defaults to the empty list, so no
ARIA-role-based removal occurs; the concrete example
`<script>bad()</script><p>Event at noon</p>` yields a digest containing
"Event at noon" and never containing "bad(". -/
theorem preprocess_default_removal (doc : HtmlForest) (t : List Char)
    (ht : defaultRemoveElements.contains t = true) :
    hasTag t (removeTags defaultRemoveElements doc) = false ∧
    removeBySelectors [] doc = doc ∧
    containsSub "Event at noon".data (preprocess_digest scriptExampleDoc) = true ∧
    containsSub "bad(".data (preprocess_digest scriptExampleDoc) = false :=
  ⟨removeTags_removes _ t ht doc, rfl, rfl, rfl⟩

/-- Witness for C9 (amended): the role-banner document and the
`script` tag. -/
theorem preprocess_default_removal_witness :
    hasTag "script".data (removeTags defaultRemoveElements roleBannerDoc) = false ∧
    removeBySelectors [] roleBannerDoc = roleBannerDoc ∧
    containsSub "Event at noon".data (preprocess_digest scriptExampleDoc) = true ∧
    containsSub "bad(".data (preprocess_digest scriptExampleDoc) = false :=
  preprocess_default_removal roleBannerDoc "script".data (by decide)

/-! ## Fence and search lemmas -/

theorem stripOpeningFence_eq_self {l : List Char}
    (h : startsWithList backtick3 l = false) : stripOpeningFence l = l := by
  unfold stripOpeningFence
  rw [if_neg (by simp [h])]

theorem stripClosingFence_eq_self {l : List Char}
    (h : startsWithList backtick3 l.reverse = false) : stripClosingFence l = l := by
  unfold stripClosingFence
  rw [if_neg (by simp [h])]

theorem takeUntilCloseBrace_append (rest : List Char) :
    ∀ mid : List Char, mid.contains '\x7d' = false →
      takeUntilCloseBrace (mid ++ '\x7d' :: rest) = some mid := by
  intro mid
  induction mid with
  | nil => intro _; rfl
  | cons a t ih =>
    intro h
    rw [List.contains_cons, Bool.or_eq_false_iff] at h
    have ha : (a == '\x7d') = false := by
      have := h.1
      simp only [beq_eq_false_iff_ne] at this ⊢
      exact fun hc => this hc.symm
    rw [List.cons_append]
    unfold takeUntilCloseBrace
    rw [if_neg (by simp [ha])]
    rw [ih h.2]
    rfl

/-! ## Claim C3 (corrected)

The claim says direct JSON parsing is attempted first and the
title-anchored substring search only runs if that parse fails.  In the
code (lines 255-259) the substring search runs *unconditionally* on the
stripped text, and whatever it extracts (which stops at the first `}`)
is what gets parsed.  A well-formed five-field JSON object whose
`title` value contains a `}` is therefore mangled — the extracted
substring `{"title": "a}` is not valid JSON and the pipeline raises a
`ResponseParsingError` instead of returning the object. -/

/-- A well-formed JSON object with the five fields whose title value
contains a closing brace. -/
def c3Response : List Char :=
  "\x7b\"title\": \"a\x7db\", \"description\": null, \"start_datetime\": null, \"end_datetime\": null, \"location\": null\x7d".data

/-- The object `c3Response` denotes. -/
def c3Object : List (List Char × Json) :=
  [("title".data, Json.str "a\x7db".data), ("description".data, Json.null),
   ("start_datetime".data, Json.null), ("end_datetime".data, Json.null),
   ("location".data, Json.null)]

set_option maxRecDepth 8192 in
/-- C3 counterexample: `c3Response` is a well-formed JSON object with
exactly the five fields, yet the pipeline's parse stage fails on it
(the claimed direct-parse-first behaviour would have returned the
object). -/
theorem direct_parse_is_not_first :
    json_loads c3Response = some (Json.obj c3Object) ∧
    c3Object.map Prod.fst = requiredFields ∧
    extract_parse c3Response = Except.error ExtractErr.jsonDecode :=
  ⟨rfl, rfl, rfl⟩

/-- C3 amended: the title-anchored substring search runs first on the
stripped text, and direct parsing happens on its result; consequently a
response text that is a well-formed JSON object with the five fields,
containing no closing brace other than its final one and no
comma-directly-before-closing-brace/bracket pattern, parses to exactly
that object.  Raw newlines — which in well-formed JSON lie between
tokens — are deleted by the line-290 cleanup before parsing, so
pretty-printed objects are covered: the hypotheses on the text that
reaches `json.loads` are stated on its newline-stripped form, which
for such objects denotes the same five-field object. -/
theorem wellformed_object_parses_exactly (mid : List Char) (d : List (List Char × Json))
    (hnb : mid.contains '\x7d' = false)
    (htitle : containsSub quotedTitle mid = true)
    (hcb : subCommaBrace (removeNewlines ('\x7b' :: (mid ++ ['\x7d']))) =
      removeNewlines ('\x7b' :: (mid ++ ['\x7d'])))
    (hck : subCommaBracket (removeNewlines ('\x7b' :: (mid ++ ['\x7d']))) =
      removeNewlines ('\x7b' :: (mid ++ ['\x7d'])))
    (hload : json_loads (removeNewlines ('\x7b' :: (mid ++ ['\x7d']))) = some (Json.obj d))
    (hfive : requiredFields.all (fun f => (dictGet f d).isSome) = true) :
    extract_parse ('\x7b' :: (mid ++ ['\x7d'])) = Except.ok d := by
  have hstrip : stripPy ('\x7b' :: (mid ++ ['\x7d'])) = '\x7b' :: (mid ++ ['\x7d']) := by
    apply stripPy_eq_self
    · intro c hc
      cases hc
      rfl
    · intro c hc
      rw [show ('\x7b' :: (mid ++ ['\x7d'])) = ('\x7b' :: mid) ++ ['\x7d'] from by simp,
        List.getLast?_concat] at hc
      cases hc
      rfl
  have hrev : ('\x7b' :: (mid ++ ['\x7d'])).reverse = '\x7d' :: (mid.reverse ++ ['\x7b']) := by
    simp
  have hopen : stripOpeningFence ('\x7b' :: (mid ++ ['\x7d'])) = '\x7b' :: (mid ++ ['\x7d']) :=
    stripOpeningFence_eq_self rfl
  have hclose : stripClosingFence ('\x7b' :: (mid ++ ['\x7d'])) = '\x7b' :: (mid ++ ['\x7d']) := by
    apply stripClosingFence_eq_self
    rw [hrev]
    rfl
  have hfind : findJsonMatch ('\x7b' :: (mid ++ ['\x7d'])) = some ('\x7b' :: (mid ++ ['\x7d'])) := by
    have htu : takeUntilCloseBrace (mid ++ ['\x7d']) = some mid :=
      takeUntilCloseBrace_append [] mid hnb
    simp only [findJsonMatch, jsonMatchAt, htu, htitle]
    rfl
  unfold extract_parse
  rw [hstrip, hopen, hclose, hstrip]
  rw [if_neg (by simp [List.isEmpty_cons])]
  unfold repairAndParse
  simp only [hfind, hcb, hck, hload]
  rfl

/-- The body of the spec's round-trip example object (everything
between the braces), on a single line. -/
def roundTripMid : List Char :=
  "\"title\": \"Tech Conference 2023\", \"description\": \"Annual technology conference\", \"start_datetime\": \"2023-07-15T10:00:00Z\", \"end_datetime\": \"2023-07-15T18:00:00Z\", \"location\": \"123 Main St\"".data

/-- The same object body pretty-printed: newlines and indentation
between the tokens, as the prompt's requested multi-line format
produces. -/
def prettyRoundTripMid : List Char :=
  "\n    \"title\": \"Tech Conference 2023\",\n    \"description\": \"Annual technology conference\",\n    \"start_datetime\": \"2023-07-15T10:00:00Z\",\n    \"end_datetime\": \"2023-07-15T18:00:00Z\",\n    \"location\": \"123 Main St\"\n".data

/-- The record the round-trip example denotes. -/
def roundTripObject : List (List Char × Json) :=
  [("title".data, Json.str "Tech Conference 2023".data),
   ("description".data, Json.str "Annual technology conference".data),
   ("start_datetime".data, Json.str "2023-07-15T10:00:00Z".data),
   ("end_datetime".data, Json.str "2023-07-15T18:00:00Z".data),
   ("location".data, Json.str "123 Main St".data)]

set_option maxRecDepth 8192 in
/-- Witness for C3 (amended) at the spec's round-trip example, both on
a single line and pretty-printed with newlines between tokens. -/
theorem wellformed_object_parses_exactly_witness :
    extract_parse ('\x7b' :: (roundTripMid ++ ['\x7d'])) = Except.ok roundTripObject ∧
    extract_parse ('\x7b' :: (prettyRoundTripMid ++ ['\x7d'])) = Except.ok roundTripObject :=
  ⟨wellformed_object_parses_exactly roundTripMid roundTripObject rfl rfl rfl rfl rfl rfl,
   wellformed_object_parses_exactly prettyRoundTripMid roundTripObject rfl rfl rfl rfl rfl rfl⟩

/-! ## Claim C10 (corrected)

With no title-anchored brace substring in the text, the field-by-field
salvage runs and, when none of the five patterns matches, the
synthesized JSON is the all-`"null"` literal, which parses and
normalizes to the all-null record.  But the claim's blanket "never a
ResponseParsingError" is wrong: when a pattern *does* match, its raw
capture is spliced between double quotes without escaping, so a capture
containing a lone backslash escape (e.g. `\q`) yields invalid JSON and
the pipeline raises `ResponseParsingError` after all. -/

/-- C10 counterexample input: contains no braces at all (hence no
title-anchored JSON substring), but the title pattern captures `a\q`. -/
def c10Response : List Char := "\"title\": a\\q".data

/-- C10 counterexample: a non-empty response with no brace-delimited
title substring on which extraction *does* raise a JSON-decode
`ResponseParsingError` (the salvage splice produces the invalid JSON
string `"a\q"`). -/
theorem salvage_can_still_fail :
    (stripPy c10Response).isEmpty = false ∧
    findJsonMatch (stripPy (stripClosingFence (stripOpeningFence (stripPy c10Response)))) = none ∧
    extract_event_info c10Response = Except.error ExtractErr.jsonDecode :=
  ⟨rfl, rfl, rfl⟩

/-- C10 amended: for every response text that is non-empty after
stripping, in which no title-anchored brace substring is found and none
of the five field patterns matches, extraction succeeds and returns the
record with all five fields null — no `ResponseParsingError`. -/
theorem salvage_all_null_on_no_match (raw : List Char)
    (h0 : (stripPy raw).isEmpty = false)
    (hjm : findJsonMatch (stripPy (stripClosingFence (stripOpeningFence (stripPy raw)))) = none)
    (hf : ∀ f ∈ requiredFields,
      searchField f (stripPy (stripClosingFence (stripOpeningFence (stripPy raw)))) = none) :
    extract_event_info raw = Except.ok (requiredFields.map fun f => (f, Json.null)) := by
  have h1 := hf "title".data (by simp [requiredFields])
  have h2 := hf "description".data (by simp [requiredFields])
  have h3 := hf "start_datetime".data (by simp [requiredFields])
  have h4 := hf "end_datetime".data (by simp [requiredFields])
  have h5 := hf "location".data (by simp [requiredFields])
  unfold extract_event_info extract_parse
  rw [if_neg (by simp [h0])]
  unfold repairAndParse
  simp only [hjm, constructFromSalvage, h1, h2, h3, h4, h5]
  rfl

/-- Witness for C10 (amended) at the response text `xyz`. -/
theorem salvage_all_null_on_no_match_witness :
    extract_event_info "xyz".data =
      Except.ok (requiredFields.map fun f => (f, Json.null)) :=
  salvage_all_null_on_no_match "xyz".data rfl rfl (by decide)

/-! ## Claim C8 (corrected)

Fence-wrapping is *not* invariant for every response text: if the text
itself ends in three backticks, the closing-fence regex removes them in
the unfenced run, while in the fenced run only the added outer markers
are removed and the inner backticks survive into the salvage capture.
For texts that (after stripping) are non-empty, do not start with
three backticks and do not end with three backticks, wrapping in a
fence (with any word-character language hint) does not change the
extraction result. -/

/-- A response text that itself ends in three backticks. -/
def c8Plain : List Char := "\"title\": B```".data

/-- `c8Plain` wrapped in a `json`-tagged markdown fence. -/
def c8Fenced : List Char := "```json\n\"title\": B```\n```".data

/-- C8 counterexample: the fenced and unfenced runs both succeed but
return different records — the fenced run's title keeps the inner
backticks (`B```) while the unfenced run's title is `B`. -/
theorem fence_wrapping_changes_result :
    c8Fenced = "```json\n".data ++ (c8Plain ++ "\n```".data) ∧
    extract_event_info c8Plain =
      Except.ok [("title".data, Json.str "B".data),
        ("description".data, Json.null), ("start_datetime".data, Json.null),
        ("end_datetime".data, Json.null), ("location".data, Json.null)] ∧
    extract_event_info c8Fenced =
      Except.ok [("title".data, Json.str "B```".data),
        ("description".data, Json.null), ("start_datetime".data, Json.null),
        ("end_datetime".data, Json.null), ("location".data, Json.null)] ∧
    (("B".data : List Char) == "B```".data) = false :=
  ⟨rfl, rfl, rfl, rfl⟩

/-- A run of word characters followed by a newline is dropped exactly
up to the newline. -/
theorem dropWhile_word_append {lang : List Char}
    (h : ∀ c ∈ lang, isReWord c = true) (y : List Char) :
    (lang ++ '\n' :: y).dropWhile isReWord = '\n' :: y := by
  induction lang with
  | nil =>
    rw [List.nil_append]
    exact List.dropWhile_cons_of_neg (by decide)
  | cons a t ih =>
    rw [List.cons_append,
      List.dropWhile_cons_of_pos (by simp [h a (List.mem_cons_self a t)])]
    exact ih fun c hc => h c (List.mem_cons_of_mem a hc)

/-- C8 amended: for every response text that is non-empty after
stripping and neither starts nor ends (after stripping) with three
backticks, wrapping it in a markdown code fence — an opening marker
with any word-character language hint and a closing marker — does not
change the extraction result. -/
theorem fence_wrapping_preserves_result (T lang : List Char)
    (h0 : (stripPy T).isEmpty = false)
    (h1 : startsWithList backtick3 (stripPy T) = false)
    (h2 : startsWithList backtick3 (stripPy T).reverse = false)
    (hlang : ∀ c ∈ lang, isReWord c = true) :
    extract_event_info (backtick3 ++ (lang ++ '\n' :: (T ++ '\n' :: backtick3))) =
      extract_event_info T := by
  set F := backtick3 ++ (lang ++ '\n' :: (T ++ '\n' :: backtick3)) with hF
  have hFrev : F.reverse = '`' :: '`' :: '`' :: ('\n' :: (T.reverse ++ ('\n' :: (lang.reverse ++ backtick3)))) := by
    rw [hF]
    simp [backtick3, List.reverse_append]
  have hstripF : stripPy F = F := by
    apply stripPy_eq_self
    · intro c hc
      rw [hF] at hc
      cases hc
      rfl
    · intro c hc
      rw [← List.head?_reverse, hFrev] at hc
      cases hc
      rfl
  have hTrev : (T ++ '\n' :: backtick3).reverse = '`' :: '`' :: '`' :: ('\n' :: T.reverse) := by
    simp [backtick3, List.reverse_append]
  have hopenF : stripOpeningFence F = T ++ '\n' :: backtick3 := by
    unfold stripOpeningFence
    rw [if_pos (by rw [hF]; exact startsWithList_append_self backtick3 _)]
    rw [hF]
    show dropOptNewline ((lang ++ '\n' :: (T ++ '\n' :: backtick3)).dropWhile isReWord) = _
    rw [dropWhile_word_append hlang]
    simp [dropOptNewline]
  have hcloseF : stripClosingFence (T ++ '\n' :: backtick3) = T := by
    unfold stripClosingFence
    rw [if_pos (by rw [hTrev]; rfl)]
    rw [hTrev]
    show (dropOptNewline ('\n' :: T.reverse)).reverse = T
    simp [dropOptNewline]
  have hopenT : stripOpeningFence (stripPy T) = stripPy T :=
    stripOpeningFence_eq_self h1
  have hcloseT : stripClosingFence (stripPy T) = stripPy T :=
    stripClosingFence_eq_self h2
  unfold extract_event_info extract_parse
  rw [hstripF, hopenF, hcloseF, hopenT, hcloseT, stripPy_idem]
  rw [if_neg (by rw [hF]; simp [List.isEmpty_cons, backtick3]), if_neg (by simp [h0])]

/-- Witness for C8 (amended): wrapping `hello` in a `json`-tagged fence
yields the same extraction result as plain `hello`. -/
theorem fence_wrapping_preserves_result_witness :
    extract_event_info (backtick3 ++ ("json".data ++ '\n' :: ("hello".data ++ '\n' :: backtick3))) =
      extract_event_info "hello".data :=
  fence_wrapping_preserves_result "hello".data "json".data rfl rfl rfl (by decide)

end CohereApi
